import Mathlib

/-!
Shallow embedding of the Flask CRUD service in src/server (app.py, models.py):
a single Company table behind three HTTP operations, GET /companies,
POST /companies and GET /companies/<int:id>.

JSON values model request and response bodies.  The relational store is the
list of persisted Company rows, in insertion (rowid) order; SQLite assigns a
new integer primary key as one more than the largest id present.  Handlers
are pure functions from the request and store to a response and the store
after the request.  The commit of an insert may fail (a storage error); the
store's transaction mechanism makes the commit atomic, so a failed commit
leaves the persisted rows unchanged, which the embedding reflects by
returning the input store on the failure branch.
-/

/-- JSON values, the wire format of request and response bodies. -/
inductive Json where
  | null : Json
  | str : String → Json
  | num : Int → Json
  | arr : List Json → Json
  | obj : List (String × Json) → Json

/-- Python isinstance-of-dict test: get_json produced an object. -/
def Json.isObj : Json → Bool
  | .obj _ => true
  | _ => false

/-- Python dict.get on a parsed JSON object: the value at the key, or none
when absent or when the value is not an object at all. -/
def Json.get (j : Json) (key : String) : Option Json :=
  match j with
  | .obj fields => fields.lookup key
  | _ => none

/-- One row of the companies table (models.py, class Company): integer
primary key, nullable text columns name and founder, nullable timestamp
column founding_date with server_default now(). -/
structure Company where
  id : Nat
  name : Option Json
  founder : Option Json
  founding_date : Option Nat

/-- The persisted companies table, rows in insertion (rowid) order. -/
structure Store where
  rows : List Company

/-- Largest primary key present in the table (0 when empty). -/
def Store.maxId (s : Store) : Nat :=
  (s.rows.map Company.id).foldr max 0

/-- The primary key SQLite assigns to the next inserted row: one more than
the largest id present. -/
def Store.nextId (s : Store) : Nat :=
  s.maxId + 1

/-- Rendering of a stored timestamp into the textual wire form used by the
serializer library for DateTime columns; the spec leaves the exact format
implementation-defined, only that it is stable, so the embedding renders the
timestamp via toString. -/
def renderTimestamp (t : Nat) : String :=
  toString t

/-- SerializerMixin to_dict on a Company: an object holding all four columns
under their plain field names, null for NULL columns, the timestamp rendered
as a string. -/
def Company.to_dict (c : Company) : Json :=
  Json.obj
    [("id", Json.num (Int.ofNat c.id)),
     ("name", c.name.getD Json.null),
     ("founder", c.founder.getD Json.null),
     ("founding_date",
       match c.founding_date with
       | some t => Json.str (renderTimestamp t)
       | none => Json.null)]

/-- Repository insert: db.session.add of a freshly constructed Company
followed by db.session.commit.  SQLite assigns the next id; the
founding_date column takes the supplied value, or the server default now()
when absent (models.py line 13).  Returns the new row and the store after
the commit. -/
def Store.insert (s : Store) (name founder : Option Json) (fd : Option Nat)
    (now : Nat) : Company × Store :=
  let c : Company :=
    { id := s.nextId, name := name, founder := founder,
      founding_date := some (fd.getD now) }
  (c, ⟨s.rows ++ [c]⟩)

/-- Company.query.filter_by(id=id).first(): the first row whose primary key
matches, or none. -/
def Store.find_by_id (s : Store) (i : Nat) : Option Company :=
  s.rows.find? (fun c => c.id == i)

/-- An HTTP-style response: a JSON body and a status code. -/
structure Response where
  body : Json
  status : Nat

/-- The blanket error body of the create handler's except branch. -/
def err422Body : Json :=
  Json.obj [("error", Json.str "422 - Unprocessable Entity")]

/-- The error body of the get-by-id handler when no row matches. -/
def notFoundBody : Json :=
  Json.obj [("error", Json.str "404 - Company not found")]

/-- Response Flask produces when request.get_json() raises BadRequest on a
body that is not parseable JSON: this happens on line 31 of app.py, before
the try block, so the handler's except clause never sees it and the
framework answers 400.  The message body is the framework's, modelled here
only up to its status code and being distinct from err422Body. -/
def badRequestResp : Response :=
  ⟨Json.obj [("message", Json.str "Failed to decode JSON object")], 400⟩

/-- Routing-level 404 produced by the framework when no route matches the
request path, before any handler is invoked. -/
def routingNotFound : Response :=
  ⟨Json.obj [("message", Json.str "The requested URL was not found on the server")], 404⟩

/-- Framework response when the matched resource defines no handler for the
request method. -/
def methodNotAllowed : Response :=
  ⟨Json.obj [("message", Json.str "The method is not allowed for the requested URL")], 405⟩

/-- Companies.get (app.py lines 24 to 28): serialize every row with to_dict
and return the array with status 200. -/
def Companies.get (s : Store) : Response :=
  ⟨Json.arr (s.rows.map Company.to_dict), 200⟩

/-- Companies.post (app.py lines 30 to 43).  The body argument is the
outcome of request.get_json(): none when the raw body is not parseable
JSON, in which case get_json raises before the try block and the framework
answers 400.  Otherwise, inside the try block, data.get("name") and
data.get("founder") raise AttributeError unless the parsed value is an
object, and the commit may fail with a storage error (commitOk false);
either failure is caught by the bare except and answered with the blanket
422 body, the store unchanged.  On success the new row is committed and its
to_dict returned with 201. -/
def Companies.post (body : Option Json) (commitOk : Bool) (now : Nat)
    (s : Store) : Response × Store :=
  match body with
  | none => (badRequestResp, s)
  | some data =>
    if data.isObj then
      if commitOk then
        let r := s.insert (data.get "name") (data.get "founder") none now
        (⟨r.1.to_dict, 201⟩, r.2)
      else (⟨err422Body, 422⟩, s)
    else (⟨err422Body, 422⟩, s)

/-- CompanyByID.get (app.py lines 49 to 54): look the row up by primary key;
found rows are serialized with status 200, otherwise the 404 error body. -/
def CompanyByID.get (i : Nat) (s : Store) : Response :=
  match s.find_by_id i with
  | some c => ⟨c.to_dict, 200⟩
  | none => ⟨notFoundBody, 404⟩

/-- HTTP methods the service's resources define handlers for. -/
inductive Method where
  | GET : Method
  | POST : Method
deriving DecidableEq

/-- Which registered route, if any, matches a request path (split into
segments).  The route "/companies/<int:id>" uses the integer converter,
which matches a segment of one or more digits and nothing else; any other
path under /companies matches no route. -/
inductive RouteMatch where
  | companies : RouteMatch
  | companyByID : Nat → RouteMatch
  | noRoute : RouteMatch
deriving DecidableEq

/-- Decimal value of a digit string, as Python int() computes it. -/
def digitsToNat (l : List Char) : Nat :=
  l.foldl (fun n c => 10 * n + (c.toNat - 48)) 0

/-- The integer route converter of the route "/companies/<int:id>": it
matches a path segment of one or more decimal digits and nothing else
(no sign, no other characters), converting it with int(). -/
def parseIntSegment (s : String) : Option Nat :=
  if s.data ≠ [] ∧ s.data.all (fun c => c.isDigit) then some (digitsToNat s.data)
  else none

/-- Route matching for the two registered resources (app.py lines 46
and 57). -/
def matchRoute : List String → RouteMatch
  | [p] => if p = "companies" then .companies else .noRoute
  | [p, seg] =>
    if p = "companies" then
      match parseIntSegment seg with
      | some i => .companyByID i
      | none => .noRoute
    else .noRoute
  | _ => .noRoute

/-- Full dispatch of one request: route matching, then the matched
resource's handler for the request method; no match yields the framework's
routing-level 404 without invoking any handler.  Returns the response and
the store after the request. -/
def handle (m : Method) (path : List String) (body : Option Json)
    (commitOk : Bool) (now : Nat) (s : Store) : Response × Store :=
  match matchRoute path with
  | .companies =>
    match m with
    | .GET => (Companies.get s, s)
    | .POST => Companies.post body commitOk now s
  | .companyByID i =>
    match m with
    | .GET => (CompanyByID.get i s, s)
    | .POST => (methodNotAllowed, s)
  | .noRoute => (routingNotFound, s)

/-- A sequence of create requests: each body is POSTed to /companies in
turn with a succeeding commit, collecting the responses and threading the
store. -/
def runPosts : List Json → Nat → Store → List Response × Store
  | [], _, s => ([], s)
  | b :: rest, now, s =>
    let r := Companies.post (some b) true now s
    let rr := runPosts rest now r.2
    (r.1 :: rr.1, rr.2)

/-- Every element of a list of naturals is bounded by the foldr of max
over the list. -/
theorem le_foldr_max (a : Nat) (l : List Nat) (h : a ∈ l) : a ≤ l.foldr max 0 := by
  induction l with
  | nil => cases h
  | cons b t ih =>
    simp only [List.foldr_cons]
    rcases List.mem_cons.mp h with rfl | h'
    · exact Nat.le_max_left _ _
    · exact Nat.le_trans (ih h') (Nat.le_max_right _ _)

/-- Every persisted row's primary key is at most the table's largest id. -/
theorem id_le_maxId {s : Store} {c : Company} (h : c ∈ s.rows) : c.id ≤ s.maxId :=
  le_foldr_max _ _ (List.mem_map_of_mem Company.id h)

/-- Folding max into a bound of the list gives the bound back. -/
theorem foldr_max_of_le (a : Nat) (l : List Nat) (h : ∀ x ∈ l, x ≤ a) :
    l.foldr max a = a := by
  induction l with
  | nil => rfl
  | cons b t ih =>
    simp only [List.foldr_cons]
    rw [ih (fun x hx => h x (List.mem_cons_of_mem _ hx))]
    exact Nat.max_eq_right (h b (List.mem_cons_self _ _))

/-- The rows after an insert are the old rows with the new one appended. -/
theorem insert_rows (s : Store) (n f : Option Json) (fd : Option Nat) (now : Nat) :
    (s.insert n f fd now).2.rows = s.rows ++ [(s.insert n f fd now).1] := rfl

/-- The id assigned by an insert is the store's next id. -/
theorem insert_id (s : Store) (n f : Option Json) (fd : Option Nat) (now : Nat) :
    (s.insert n f fd now).1.id = s.nextId := rfl

/-- After an insert, the largest id in the table is the id just assigned. -/
theorem insert_maxId (s : Store) (n f : Option Json) (fd : Option Nat) (now : Nat) :
    (s.insert n f fd now).2.maxId = s.nextId := by
  have hmap : (s.insert n f fd now).2.rows.map Company.id
      = s.rows.map Company.id ++ [s.nextId] := by
    rw [insert_rows, List.map_append]
    rfl
  have hb : ∀ x ∈ s.rows.map Company.id, x ≤ s.nextId := by
    intro x hx
    rcases List.mem_map.mp hx with ⟨c, hc, rfl⟩
    exact Nat.le_succ_of_le (id_le_maxId hc)
  unfold Store.maxId
  rw [hmap, List.foldr_append]
  simp only [List.foldr_cons, List.foldr_nil, Nat.max_zero]
  exact foldr_max_of_le _ _ hb

/-- Looking the freshly inserted row up by its id finds exactly that row:
its id is strictly larger than every id already present. -/
theorem find_inserted (s : Store) (n f : Option Json) (fd : Option Nat) (now : Nat) :
    (s.insert n f fd now).2.find_by_id (s.insert n f fd now).1.id
      = some (s.insert n f fd now).1 := by
  unfold Store.find_by_id
  rw [insert_rows, List.find?_append]
  have hnone : s.rows.find? (fun c => c.id == (s.insert n f fd now).1.id) = none := by
    rw [List.find?_eq_none]
    intro c hc hbeq
    have hce : c.id = (s.insert n f fd now).1.id := by
      simpa using hbeq
    have hle := id_le_maxId hc
    rw [insert_id] at hce
    unfold Store.nextId at hce
    omega
  rw [hnone]
  simp [List.find?]

/-- Behaviour of the create handler once the body parsed to an object:
commit success stores and returns the new row, commit failure gives the
blanket 422. -/
theorem post_obj (j : Json) (hobj : j.isObj = true) (ck : Bool) (now : Nat) (s : Store) :
    Companies.post (some j) ck now s =
      if ck then
        (⟨(s.insert (j.get "name") (j.get "founder") none now).1.to_dict, 201⟩,
         (s.insert (j.get "name") (j.get "founder") none now).2)
      else (⟨err422Body, 422⟩, s) := by
  simp [Companies.post, hobj]

/-- C1 (counterexample to the claim as stated): a POST /companies request
whose raw body is not parseable JSON makes request.get_json() raise before
the try block, so the response is the framework's 400, not the handler's
422 — refuting the claim that ANY parsing failure yields status 422. -/
theorem C1_counterexample :
    (Companies.post none true 0 ⟨[]⟩).1.status = 400 ∧
    ¬ (Companies.post none true 0 ⟨[]⟩).1.status = 422 :=
  ⟨rfl, by decide⟩

/-- C1 (amended): every failure inside the create handler's try block — a
parsed body that is not an object, so that data.get raises, or a failed
insert commit — returns exactly the blanket error body with status 422 and
leaves the store unchanged; but a body that is not parseable JSON at all
raises before the try block and is answered by the framework with status
400, not 422. -/
theorem C1_create_failure_responses (body : Option Json) (ck : Bool) (now : Nat)
    (s : Store) :
    (∀ j, body = some j → j.isObj = false →
        Companies.post body ck now s = (⟨err422Body, 422⟩, s)) ∧
    (∀ j, body = some j → ck = false →
        Companies.post body ck now s = (⟨err422Body, 422⟩, s)) ∧
    (body = none →
        Companies.post body ck now s = (badRequestResp, s) ∧
        badRequestResp.status = 400) := by
  refine ⟨?_, ?_, ?_⟩
  · rintro j rfl hno
    simp [Companies.post, hno]
  · rintro j rfl rfl
    by_cases hobj : j.isObj = true <;> simp [Companies.post, hobj]
  · rintro rfl
    exact ⟨rfl, rfl⟩

/-- C1 witness: the amended theorem applied to the concrete non-object body
given by an empty JSON array. -/
theorem C1_create_failure_responses_witness :
    Companies.post (some (Json.arr [])) true 0 ⟨[]⟩
      = (⟨err422Body, 422⟩, (⟨[]⟩ : Store)) :=
  (C1_create_failure_responses (some (Json.arr [])) true 0 ⟨[]⟩).1 (Json.arr []) rfl rfl

/-- C2: a create request that does not succeed (status other than 201, in
particular a failed insert commit) leaves the persisted store exactly as it
was, and every subsequent request behaves as if the failed create had never
happened. -/
theorem C2_failed_create_atomic (body : Option Json) (ck : Bool) (now : Nat)
    (s : Store) (h : (Companies.post body ck now s).1.status ≠ 201) :
    (Companies.post body ck now s).2 = s ∧
    (∀ m path b ck2 n2,
        handle m path b ck2 n2 (Companies.post body ck now s).2
          = handle m path b ck2 n2 s) := by
  have hs : (Companies.post body ck now s).2 = s := by
    match body with
    | none => rfl
    | some j =>
      by_cases hobj : j.isObj = true
      · cases ck
        · simp [Companies.post, hobj]
        · exact absurd (by simp [Companies.post, hobj]) h
      · simp [Bool.not_eq_true] at hobj
        simp [Companies.post, hobj]
  exact ⟨hs, fun m p b c2 n2 => by rw [hs]⟩

/-- C2 witness: a failed commit on a concrete one-row store changes
nothing. -/
theorem C2_failed_create_atomic_witness :
    (Companies.post (some (Json.obj [("name", Json.str "Acme")])) false 3
        ⟨[⟨1, none, none, some 2⟩]⟩).2 = (⟨[⟨1, none, none, some 2⟩]⟩ : Store) :=
  (C2_failed_create_atomic (some (Json.obj [("name", Json.str "Acme")])) false 3
    ⟨[⟨1, none, none, some 2⟩]⟩ (by decide)).1

/-- C7: GET /companies always answers 200 with the array serializing every
stored row in order via to_dict; on the empty store the array is empty. -/
theorem C7_list_all (body : Option Json) (ck : Bool) (now : Nat) (s : Store) :
    handle Method.GET ["companies"] body ck now s
        = (⟨Json.arr (s.rows.map Company.to_dict), 200⟩, s) ∧
    handle Method.GET ["companies"] body ck now ⟨[]⟩
        = (⟨Json.arr [], 200⟩, (⟨[]⟩ : Store)) := by
  constructor <;> simp [handle, matchRoute, Companies.get]

/-- C8: a path segment after /companies/ that the integer converter does
not match (not a nonempty all-digit string) matches no route at all, so the
framework answers the routing-level 404 and the get-by-id handler is never
invoked. -/
theorem C8_nonint_segment_routing404 (seg : String)
    (h : parseIntSegment seg = none) (body : Option Json) (ck : Bool)
    (now : Nat) (s : Store) :
    matchRoute ["companies", seg] = RouteMatch.noRoute ∧
    handle Method.GET ["companies", seg] body ck now s = (routingNotFound, s) ∧
    routingNotFound.status = 404 := by
  have hm : matchRoute ["companies", seg] = RouteMatch.noRoute := by
    simp [matchRoute, h]
  exact ⟨hm, by simp [handle, hm], rfl⟩

/-- C8 witness: the concrete request GET /companies/abc is answered by the
routing-level 404. -/
theorem C8_nonint_segment_routing404_witness :
    matchRoute ["companies", "abc"] = RouteMatch.noRoute ∧
    handle Method.GET ["companies", "abc"] none true 0 ⟨[]⟩
        = (routingNotFound, (⟨[]⟩ : Store)) ∧
    routingNotFound.status = 404 :=
  C8_nonint_segment_routing404 "abc" (by decide) none true 0 ⟨[]⟩

/-- C10: the two read operations, GET /companies and GET /companies/id —
indeed any GET request, matched or not — leave the stored rows exactly as
they were. -/
theorem C10_get_preserves_store (path : List String) (body : Option Json)
    (ck : Bool) (now : Nat) (s : Store) :
    (handle Method.GET path body ck now s).2 = s := by
  cases h : matchRoute path <;> simp [handle, h]

/-- C3: creating a Company from any JSON-object body and fetching it by the
id in the returned representation answers 200 with the same representation;
that representation carries all four fields under their plain names, its
name and founder are exactly the values taken from the request body, and
its founding_date is a non-null rendered timestamp. -/
theorem C3_roundtrip (j : Json) (hobj : j.isObj = true) (now : Nat) (s : Store) :
    (Companies.post (some j) true now s).1.status = 201 ∧
    ∃ i : Nat,
      (Companies.post (some j) true now s).1.body.get "id"
          = some (Json.num (Int.ofNat i)) ∧
      (CompanyByID.get i (Companies.post (some j) true now s).2).status = 200 ∧
      (CompanyByID.get i (Companies.post (some j) true now s).2).body
          = (Companies.post (some j) true now s).1.body ∧
      (Companies.post (some j) true now s).1.body.get "name"
          = some ((j.get "name").getD Json.null) ∧
      (Companies.post (some j) true now s).1.body.get "founder"
          = some ((j.get "founder").getD Json.null) ∧
      (Companies.post (some j) true now s).1.body.get "founding_date"
          = some (Json.str (renderTimestamp now)) ∧
      ¬ (Companies.post (some j) true now s).1.body.get "founding_date"
          = some Json.null := by
  rw [post_obj j hobj, if_pos rfl]
  have hfind : (s.insert (j.get "name") (j.get "founder") none now).2.find_by_id
      s.nextId = some (s.insert (j.get "name") (j.get "founder") none now).1 :=
    find_inserted s (j.get "name") (j.get "founder") none now
  refine ⟨rfl, s.nextId, rfl, ?_, ?_, rfl, rfl, rfl, ?_⟩
  · unfold CompanyByID.get
    rw [hfind]
  · unfold CompanyByID.get
    rw [hfind]
  · intro h
    exact Json.noConfusion (Option.some.inj h)

/-- C3 witness: the create of the scenario in the spec succeeds with a
201 on the empty store. -/
theorem C3_roundtrip_witness :
    (Companies.post
        (some (Json.obj [("name", Json.str "Acme"), ("founder", Json.str "Jane Doe")]))
        true 0 ⟨[]⟩).1.status = 201 :=
  (C3_roundtrip
    (Json.obj [("name", Json.str "Acme"), ("founder", Json.str "Jane Doe")])
    rfl 0 ⟨[]⟩).1

/-- C4: fetching an id that some stored row carries answers 200 with that
row's representation; fetching an id no stored row carries answers 404 with
exactly the not-found error body. -/
theorem C4_get_by_id (i : Nat) (s : Store) :
    ((∃ c ∈ s.rows, c.id = i) →
      ∃ c, c ∈ s.rows ∧ c.id = i ∧ s.find_by_id i = some c ∧
        CompanyByID.get i s = ⟨c.to_dict, 200⟩) ∧
    ((∀ c ∈ s.rows, c.id ≠ i) →
      CompanyByID.get i s = ⟨notFoundBody, 404⟩) := by
  constructor
  · rintro ⟨c0, hc0, hid⟩
    have hsome : (s.rows.find? (fun c => c.id == i)).isSome := by
      rw [List.find?_isSome]
      exact ⟨c0, hc0, by simp [hid]⟩
    rcases Option.isSome_iff_exists.mp hsome with ⟨c, hc⟩
    have hcid : c.id = i := by
      have := List.find?_some hc
      simpa using this
    refine ⟨c, List.mem_of_find?_eq_some hc, hcid, hc, ?_⟩
    unfold CompanyByID.get
    have hfd : s.find_by_id i = some c := hc
    rw [hfd]
  · intro h
    have hnone : s.find_by_id i = none := by
      unfold Store.find_by_id
      rw [List.find?_eq_none]
      intro c hc hbeq
      exact h c hc (by simpa using hbeq)
    unfold CompanyByID.get
    rw [hnone]

/-- C4 witness: on a concrete one-row store, the present id 1 answers 200
with the row's representation and the absent id 2 answers the 404 body. -/
theorem C4_get_by_id_witness :
    CompanyByID.get 1 ⟨[⟨1, some (Json.str "Acme"), none, some 5⟩]⟩
        = ⟨Company.to_dict ⟨1, some (Json.str "Acme"), none, some 5⟩, 200⟩ ∧
    CompanyByID.get 2 ⟨[⟨1, some (Json.str "Acme"), none, some 5⟩]⟩
        = ⟨notFoundBody, 404⟩ := by
  constructor
  · rcases (C4_get_by_id 1 ⟨[⟨1, some (Json.str "Acme"), none, some 5⟩]⟩).1
        ⟨⟨1, some (Json.str "Acme"), none, some 5⟩, List.mem_singleton.mpr rfl, rfl⟩
      with ⟨c, hmem, _, _, hresp⟩
    have hceq : c = ⟨1, some (Json.str "Acme"), none, some 5⟩ :=
      List.mem_singleton.mp hmem
    rwa [hceq] at hresp
  · exact (C4_get_by_id 2 ⟨[⟨1, some (Json.str "Acme"), none, some 5⟩]⟩).2 (by decide)

/-- C5: an insert without a supplied founding_date stores the server
default, the insert-time clock value, in the new row: the stored timestamp
is present and at or after the moment the create call was made. -/
theorem C5_default_timestamp (name founder : Option Json)
    (callTime insertTime : Nat) (h : callTime ≤ insertTime) (s : Store) :
    (s.insert name founder none insertTime).1.founding_date = some insertTime ∧
    callTime ≤ insertTime ∧
    ((s.insert name founder none insertTime).1.founding_date).isSome = true ∧
    (s.insert name founder none insertTime).2.rows
      = s.rows ++ [(s.insert name founder none insertTime).1] :=
  ⟨rfl, h, rfl, rfl⟩

/-- C5 witness: a concrete insert at clock value 7 after a call at clock
value 3 stores timestamp 7. -/
theorem C5_default_timestamp_witness :
    ((⟨[]⟩ : Store).insert none none none 7).1.founding_date = some 7 ∧
    3 ≤ 7 ∧
    (((⟨[]⟩ : Store).insert none none none 7).1.founding_date).isSome = true ∧
    ((⟨[]⟩ : Store).insert none none none 7).2.rows
      = (⟨[]⟩ : Store).rows ++ [((⟨[]⟩ : Store).insert none none none 7).1] :=
  C5_default_timestamp none none 3 7 (by decide) ⟨[]⟩

/-- Strengthened induction for sequences of creates: the ids in the
returned representations are a duplicate-free list of naturals, each
strictly larger than every id already present, and the rows only grow at
the end. -/
theorem runPosts_ids (bodies : List Json) (now : Nat) :
    ∀ s : Store, (∀ b ∈ bodies, b.isObj = true) →
    ∃ ids : List Nat,
      (runPosts bodies now s).1.map (fun r => r.body.get "id")
        = ids.map (fun i => some (Json.num (Int.ofNat i))) ∧
      ids.Nodup ∧ (∀ i ∈ ids, s.maxId < i) ∧
      ∃ t, (runPosts bodies now s).2.rows = s.rows ++ t := by
  induction bodies with
  | nil =>
    intro s _
    exact ⟨[], rfl, List.nodup_nil, by simp, [], by simp [runPosts]⟩
  | cons b rest ih =>
    intro s hobj
    have hb : b.isObj = true := hobj b (List.mem_cons_self b rest)
    have hrest : ∀ x ∈ rest, x.isObj = true :=
      fun x hx => hobj x (List.mem_cons_of_mem b hx)
    have hpost : Companies.post (some b) true now s
        = (⟨(s.insert (b.get "name") (b.get "founder") none now).1.to_dict, 201⟩,
           (s.insert (b.get "name") (b.get "founder") none now).2) := by
      rw [post_obj b hb, if_pos rfl]
    have hstep : runPosts (b :: rest) now s
        = ((Companies.post (some b) true now s).1
             :: (runPosts rest now (Companies.post (some b) true now s).2).1,
           (runPosts rest now (Companies.post (some b) true now s).2).2) := rfl
    rcases ih (s.insert (b.get "name") (b.get "founder") none now).2 hrest
      with ⟨ids, hmap, hnodup, hgt, t, hrows⟩
    have hmax : (s.insert (b.get "name") (b.get "founder") none now).2.maxId
        = s.nextId := insert_maxId s _ _ _ _
    refine ⟨s.nextId :: ids, ?_, ?_, ?_, ?_⟩
    · rw [hstep, hpost]
      simp only [List.map_cons]
      rw [hmap]
      rfl
    · rw [List.nodup_cons]
      refine ⟨fun hmem => ?_, hnodup⟩
      have := hgt s.nextId hmem
      rw [hmax] at this
      exact Nat.lt_irrefl _ this
    · intro i hi
      rcases List.mem_cons.mp hi with rfl | hi'
      · exact Nat.lt_succ_self s.maxId
      · have := hgt i hi'
        rw [hmax] at this
        unfold Store.nextId at this
        omega
    · refine ⟨(s.insert (b.get "name") (b.get "founder") none now).1 :: t, ?_⟩
      rw [hstep, hpost]
      rw [hrows, insert_rows, List.append_assoc]
      rfl

/-- C6: across any sequence of successful creates, the ids carried by the
returned representations form a duplicate-free list — pairwise distinct —
and the rows already stored are untouched, each keeping the id assigned at
its own creation. -/
theorem C6_distinct_ids (bodies : List Json) (now : Nat) (s : Store)
    (hobj : ∀ b ∈ bodies, b.isObj = true) :
    (∃ ids : List Nat,
      (runPosts bodies now s).1.map (fun r => r.body.get "id")
        = ids.map (fun i => some (Json.num (Int.ofNat i))) ∧
      ids.Nodup) ∧
    ∃ t, (runPosts bodies now s).2.rows = s.rows ++ t := by
  rcases runPosts_ids bodies now s hobj with ⟨ids, hmap, hnodup, _, ht⟩
  exact ⟨⟨ids, hmap, hnodup⟩, ht⟩

/-- C6 witness: two concrete creates on the empty store yield
duplicate-free ids. -/
theorem C6_distinct_ids_witness :
    (∃ ids : List Nat,
      (runPosts [Json.obj [("name", Json.str "A")], Json.obj []] 0 ⟨[]⟩).1.map
          (fun r => r.body.get "id")
        = ids.map (fun i => some (Json.num (Int.ofNat i))) ∧
      ids.Nodup) ∧
    ∃ t, (runPosts [Json.obj [("name", Json.str "A")], Json.obj []] 0 ⟨[]⟩).2.rows
        = (⟨[]⟩ : Store).rows ++ t :=
  C6_distinct_ids [Json.obj [("name", Json.str "A")], Json.obj []] 0 ⟨[]⟩ (by decide)

/-- C9: the create handler reads only the name and founder fields of the
parsed body — two object bodies agreeing on those two fields are handled
identically, whatever other fields (founding_date included) they carry —
and the committed row always receives the server-assigned default
founding_date. -/
theorem C9_post_ignores_other_fields (j1 j2 : Json) (h1 : j1.isObj = true)
    (h2 : j2.isObj = true) (hn : j1.get "name" = j2.get "name")
    (hf : j1.get "founder" = j2.get "founder") (ck : Bool) (now : Nat) (s : Store) :
    Companies.post (some j1) ck now s = Companies.post (some j2) ck now s ∧
    (ck = true →
      (Companies.post (some j1) ck now s).2.rows
        = s.rows ++ [{ id := s.nextId, name := j1.get "name",
                       founder := j1.get "founder", founding_date := some now }]) := by
  constructor
  · rw [post_obj j1 h1, post_obj j2 h2, hn, hf]
  · rintro rfl
    rw [post_obj j1 h1, if_pos rfl]
    rfl

/-- C9 witness: a body carrying an explicit founding_date field is handled
exactly like the same body without it, and the stored row's founding_date
is the server default. -/
theorem C9_post_ignores_other_fields_witness :
    Companies.post
        (some (Json.obj [("name", Json.str "Acme"), ("founder", Json.str "Jane Doe"),
                         ("founding_date", Json.str "1999-01-01")])) true 5 ⟨[]⟩
      = Companies.post
          (some (Json.obj [("name", Json.str "Acme"), ("founder", Json.str "Jane Doe")]))
          true 5 ⟨[]⟩ :=
  (C9_post_ignores_other_fields
    (Json.obj [("name", Json.str "Acme"), ("founder", Json.str "Jane Doe"),
               ("founding_date", Json.str "1999-01-01")])
    (Json.obj [("name", Json.str "Acme"), ("founder", Json.str "Jane Doe")])
    rfl rfl rfl rfl true 5 ⟨[]⟩).1
